import Mathlib

/-!
Verification of the value/address lowering layer declared in
`src/src/tilde_backend.hpp` (Odin's tilde backend header).

The header is declaration-only: data shapes (`cgValue`, `cgAddr`,
`cgProcedure`, `cgModule`, the `gb_global` reflection bookkeeping) are
embedded directly from the source; where only a declaration of an
operation appears in the source (the `cg_value` overload bodies, the
`cgAddr` load/store protocols, the concurrency discipline), the
behaviour is modelled from the specification, and each such definition
says so in its doc comment.

Opaque front-end and backend pointer types (`TB_Symbol*`, `TB_Node*`,
`Type*`, `Ast*`, `Entity*`, ...) are embedded as `Nat`-indexed handles.
-/

namespace Tilde

/-- Opaque backend symbol handle (`TB_Symbol*`). -/
structure TBSymbol where
  id : Nat
deriving DecidableEq, Repr

/-- Opaque backend IR node handle (`TB_Node*`). -/
structure TBNode where
  id : Nat
deriving DecidableEq, Repr

/-- Opaque backend global handle (`TB_Global*`); a symbol subclass. -/
structure TBGlobal where
  sym : Nat
deriving DecidableEq, Repr

/-- Opaque backend external-declaration handle (`TB_External*`); a symbol subclass. -/
structure TBExternal where
  sym : Nat
deriving DecidableEq, Repr

/-- Opaque backend function handle (`TB_Function*`); a symbol subclass. -/
structure TBFunction where
  sym : Nat
deriving DecidableEq, Repr

/-- Opaque front-end type handle (`Type*`; `Type` is reserved in Lean, hence `Ty`). -/
structure Ty where
  id : Nat
deriving DecidableEq, Repr

/-- Opaque front-end AST node handle (`Ast*`). -/
structure Ast where
  id : Nat
deriving DecidableEq, Repr

/-- `enum cgValueKind : u32` (src/src/tilde_backend.hpp:27-31).
Constructors mirror `cgValue_Value`, `cgValue_Addr`, `cgValue_Symbol`;
the spec names these PlainValue, AddressValue, SymbolValue. -/
inductive cgValueKind where
  | Value
  | Addr
  | Symbol
deriving DecidableEq, Repr

/-- The anonymous union inside `cgValue` (src/src/tilde_backend.hpp:36-39):
either a backend symbol handle or a backend IR node. -/
inductive cgValuePayload where
  | symbol (s : TBSymbol)
  | node (n : TBNode)
deriving DecidableEq, Repr

/-- `struct cgValue` (src/src/tilde_backend.hpp:33-40). -/
structure cgValue where
  kind : cgValueKind
  type : Ty
  payload : cgValuePayload
deriving DecidableEq, Repr

/-- The five `cg_value` overloads (src/src/tilde_backend.hpp:153-157) keyed
by the static type of their first argument. -/
inductive cgValueInput where
  | global (g : TBGlobal)
  | externDecl (e : TBExternal)
  | function (f : TBFunction)
  | symbol (s : TBSymbol)
  | node (n : TBNode)
deriving DecidableEq, Repr

/-- Whether a `cg_value` overload argument is of symbol class
(global, external declaration, function, or generic backend symbol). -/
def cgValueInput.isSymbolClass : cgValueInput → Bool
  | .global _ => true
  | .externDecl _ => true
  | .function _ => true
  | .symbol _ => true
  | .node _ => false

/-- Modelled from the spec: the bodies of the five `cg_value` overloads are
not in src (only their declarations, src/src/tilde_backend.hpp:153-157).
Spec 4.1: construction from a symbol-class input always yields SymbolValue;
construction from a raw node always yields PlainValue; the source type is
the type passed at construction. -/
def cg_value (inp : cgValueInput) (type : Ty) : cgValue :=
  match inp with
  | .global g => { kind := .Symbol, type := type, payload := .symbol ⟨g.sym⟩ }
  | .externDecl e => { kind := .Symbol, type := type, payload := .symbol ⟨e.sym⟩ }
  | .function f => { kind := .Symbol, type := type, payload := .symbol ⟨f.sym⟩ }
  | .symbol s => { kind := .Symbol, type := type, payload := .symbol s }
  | .node n => { kind := .Value, type := type, payload := .node n }

/-- Front-end `Selection`: ordered field-index sequence describing navigation
from an aggregate to a nested field. -/
structure Selection where
  path : List Nat
deriving DecidableEq, Repr

/-- `enum cgAddrKind` (src/src/tilde_backend.hpp:42-53); the spec names these
Default, MapElement, ContextField, SoaElement, RelativePointer, RelativeSlice,
SwizzleSmall, SwizzleLarge. -/
inductive cgAddrKind where
  | Default
  | Map
  | Context
  | SoaVariable
  | RelativePointer
  | RelativeSlice
  | Swizzle
  | SwizzleLarge
deriving DecidableEq, Repr, Fintype

/-- The `swizzle` union member (src/src/tilde_backend.hpp:78-82):
`Type *type; u8 count; u8 indices[4];` — the four array slots are the
fields `i0`..`i3`, of which the first `count` are live. -/
structure SwizzlePayload where
  type : Ty
  count : Nat
  i0 : Nat
  i1 : Nat
  i2 : Nat
  i3 : Nat
deriving DecidableEq, Repr

/-- The live prefix of the fixed `u8 indices[4]` array: the first `count` slots. -/
def SwizzlePayload.idxList (p : SwizzlePayload) : List Nat :=
  List.take p.count [p.i0, p.i1, p.i2, p.i3]

/-- The anonymous union inside `cgAddr` (src/src/tilde_backend.hpp:58-87),
one constructor per union member. `unset` stands for a zero-initialized union
that no consumer reads (the `Default` kind reads no payload). The `index_set`
member is declared in the union but no `cgAddrKind` reads it. -/
inductive cgAddrUnion where
  | unset
  | map (key : cgValue) (type : Ty) (result : Ty)
  | ctx (sel : Selection)
  | soa (index : cgValue) (index_expr : Ast)
  | index_set (index : cgValue) (node : Ast)
  | relative (deref : Bool)
  | swizzle (p : SwizzlePayload)
  | swizzle_large (type : Ty) (indices : List Int)
deriving DecidableEq, Repr

/-- `struct cgAddr` (src/src/tilde_backend.hpp:55-88). -/
structure cgAddr where
  kind : cgAddrKind
  addr : cgValue
  u : cgAddrUnion
deriving DecidableEq, Repr

/-- Tag naming which union member a `cgAddrUnion` value is. -/
inductive cgAddrMember where
  | unset
  | map
  | ctx
  | soa
  | index_set
  | relative
  | swizzle
  | swizzle_large
deriving DecidableEq, Repr

/-- The member tag of a union value. -/
def cgAddrUnion.member : cgAddrUnion → cgAddrMember
  | .unset => .unset
  | .map _ _ _ => .map
  | .ctx _ => .ctx
  | .soa _ _ => .soa
  | .index_set _ _ => .index_set
  | .relative _ => .relative
  | .swizzle _ => .swizzle
  | .swizzle_large _ _ => .swizzle_large

/-- Which union member each `cgAddrKind` reads (spec 4.2 payload column).
`Default` reads none; `RelativePointer` and `RelativeSlice` both read the
`relative` member (the deref flag), under distinct load/store protocols. -/
def kindMember : cgAddrKind → cgAddrMember
  | .Default => .unset
  | .Map => .map
  | .Context => .ctx
  | .SoaVariable => .soa
  | .RelativePointer => .relative
  | .RelativeSlice => .relative
  | .Swizzle => .swizzle
  | .SwizzleLarge => .swizzle_large

/-- Well-formedness of a `cgAddr`: the union holds the member its kind reads
(spec 4.2 invariant: the active payload corresponds exactly to kind). -/
def cgAddr.WF : cgAddr → Bool
  | ⟨.Default, _, .unset⟩ => true
  | ⟨.Map, _, .map _ _ _⟩ => true
  | ⟨.Context, _, .ctx _⟩ => true
  | ⟨.SoaVariable, _, .soa _ _⟩ => true
  | ⟨.RelativePointer, _, .relative _⟩ => true
  | ⟨.RelativeSlice, _, .relative _⟩ => true
  | ⟨.Swizzle, _, .swizzle _⟩ => true
  | ⟨.SwizzleLarge, _, .swizzle_large _ _⟩ => true
  | _ => false

/-- The backend handle carried by a value (symbol id or node id). -/
def cgValue.handle : cgValue → Nat
  | ⟨_, _, .symbol s⟩ => s.id
  | ⟨_, _, .node n⟩ => n.id

/-- Modelled from the spec: the body of `cg_addr`
(declared src/src/tilde_backend.hpp:159) is not in src. Spec 4.1: the
promotion operation wraps any Value into a Default-kind Addr. -/
def cg_addr (value : cgValue) : cgAddr :=
  { kind := .Default, addr := value, u := .unset }

/-- Modelled from the spec: the SwizzleSmall constructor is not in src
(only the payload shape, src/src/tilde_backend.hpp:78-82, with the comment
`// 2, 3, or 4 components`). Spec 4.2/8: SwizzleSmall accepts only a count
of 2, 3 or 4, with at most 4 literal component indices; any other count is
rejected. -/
def cg_addr_swizzle (base : cgValue) (type : Ty) (indices : List Nat) :
    Option cgAddr :=
  if 2 ≤ indices.length ∧ indices.length ≤ 4 then
    some { kind := .Swizzle, addr := base
         , u := .swizzle { type := type, count := indices.length
                         , i0 := indices.getD 0 0, i1 := indices.getD 1 0
                         , i2 := indices.getD 2 0, i3 := indices.getD 3 0 } }
  else none

/-- Abstract backend IR operations emitted while executing a load/store
protocol (spec 4.2 table). -/
inductive cgInstr where
  | memRead (a : Nat)
  | memWrite (a v : Nat)
  | runtimeCall (fname : String) (args : List Nat)
  | fieldNav (path : List Nat)
  | soaFieldLoad (index : Nat)
  | soaFieldStore (index v : Nat)
  | readOffset (a : Nat)
  | writeOffset (a : Nat) (off : Int)
  | readLength (a : Nat)
  | writeLength (a len : Nat)
  | shuffle (sel : List Int)
  | scatterWrite (dst : Int) (v : Nat)
  | derefExtra (a : Nat)
deriving DecidableEq, Repr

/-- User-facing, recoverable errors of store synthesis (spec 7, taxonomy 2). -/
inductive cgError where
  | duplicateSwizzleDestination
deriving DecidableEq, Repr

/-- Whether a list of destination indices contains a repeated index. -/
def hasDup : List Int → Bool
  | [] => false
  | x :: xs => xs.contains x || hasDup xs

/-- The destination index list of a swizzle-kind Addr (empty otherwise). -/
def swizzleIndicesOf (a : cgAddr) : List Int :=
  match a.u with
  | .swizzle p => p.idxList.map Int.ofNat
  | .swizzle_large _ idx => idx
  | _ => []

/-- Modelled from the spec: the load protocols are not in src. Spec 4.2 table,
load column, as an emitted-operation trace; `none` marks a payload accessed
under the wrong kind (spec 7, taxonomy 1: fatal invariant violation). -/
def cg_addr_load (a : cgAddr) : Option (List cgInstr) :=
  match a.kind, a.u with
  | .Default, _ => some [.memRead a.addr.handle]
  | .Map, .map key _ _ => some [.runtimeCall "map-get" [a.addr.handle, key.handle]]
  | .Context, .ctx sel => some [.fieldNav sel.path, .memRead a.addr.handle]
  | .SoaVariable, .soa index _ => some [.soaFieldLoad index.handle]
  | .RelativePointer, .relative deref =>
      some ([.readOffset a.addr.handle] ++ if deref then [.derefExtra a.addr.handle] else [])
  | .RelativeSlice, .relative deref =>
      some (([.readOffset a.addr.handle] ++ if deref then [.derefExtra a.addr.handle] else [])
            ++ [.readLength a.addr.handle])
  | .Swizzle, .swizzle p => some [.shuffle (p.idxList.map Int.ofNat)]
  | .SwizzleLarge, .swizzle_large _ idx => some [.shuffle idx]
  | _, _ => none

/-- Modelled from the spec: the store protocols are not in src. Spec 4.2 table,
store column. `none` marks a payload accessed under the wrong kind (fatal
defect); `some (.error e)` is a user-facing error that aborts only the current
store synthesis and emits no instructions; `some (.ok instrs)` emits `instrs`.
Relative stores write offset = target handle − storage handle, a zero offset
encoding nil (target handle 0). -/
def cg_addr_store (a : cgAddr) (v : cgValue) : Option (Except cgError (List cgInstr)) :=
  match a.kind, a.u with
  | .Default, _ => some (.ok [.memWrite a.addr.handle v.handle])
  | .Map, .map key _ _ =>
      some (.ok [.runtimeCall "map-set" [a.addr.handle, key.handle, v.handle]])
  | .Context, .ctx sel => some (.ok [.fieldNav sel.path, .memWrite a.addr.handle v.handle])
  | .SoaVariable, .soa index _ => some (.ok [.soaFieldStore index.handle v.handle])
  | .RelativePointer, .relative _ =>
      some (.ok [.writeOffset a.addr.handle
        (if v.handle = 0 then 0 else Int.ofNat v.handle - Int.ofNat a.addr.handle)])
  | .RelativeSlice, .relative _ =>
      some (.ok [.writeOffset a.addr.handle
        (if v.handle = 0 then 0 else Int.ofNat v.handle - Int.ofNat a.addr.handle),
        .writeLength a.addr.handle v.handle])
  | .Swizzle, .swizzle p =>
      let idx := p.idxList.map Int.ofNat
      if hasDup idx then some (.error .duplicateSwizzleDestination)
      else some (.ok (idx.map fun i => .scatterWrite i v.handle))
  | .SwizzleLarge, .swizzle_large _ idx =>
      if hasDup idx then some (.error .duplicateSwizzleDestination)
      else some (.ok (idx.map fun i => .scatterWrite i v.handle))
  | _, _ => none

/-- A canonical base value shared by the canonical Addrs below. -/
def canonBase : cgValue := { kind := .Value, type := ⟨0⟩, payload := .node ⟨0⟩ }

/-- One canonical well-formed Addr per kind, all over the same base; the
SwizzleLarge one carries five indices, a length only SwizzleLarge can hold. -/
def canonAddr : cgAddrKind → cgAddr
  | .Default => ⟨.Default, canonBase, .unset⟩
  | .Map => ⟨.Map, canonBase, .map canonBase ⟨0⟩ ⟨0⟩⟩
  | .Context => ⟨.Context, canonBase, .ctx ⟨[0]⟩⟩
  | .SoaVariable => ⟨.SoaVariable, canonBase, .soa canonBase ⟨0⟩⟩
  | .RelativePointer => ⟨.RelativePointer, canonBase, .relative false⟩
  | .RelativeSlice => ⟨.RelativeSlice, canonBase, .relative false⟩
  | .Swizzle => ⟨.Swizzle, canonBase, .swizzle ⟨⟨0⟩, 2, 0, 1, 0, 0⟩⟩
  | .SwizzleLarge => ⟨.SwizzleLarge, canonBase, .swizzle_large ⟨0⟩ [0, 1, 2, 3, 4]⟩

/-- Enumeration of the Addr kinds in source declaration order. -/
def allAddrKinds : List cgAddrKind :=
  [.Default, .Map, .Context, .SoaVariable,
   .RelativePointer, .RelativeSlice, .Swizzle, .SwizzleLarge]

/-- A concrete SwizzleSmall Addr whose two destination indices coincide. -/
def dupSwizzleAddr : cgAddr :=
  { kind := .Swizzle, addr := canonBase, u := .swizzle ⟨⟨0⟩, 2, 0, 0, 0, 0⟩ }

/-- Memory as seen by the RelativePointer protocol: the signed offset cell at
each storage address, and plain data memory for the extra dereference. -/
structure RelMemory where
  offsets : Nat → Int
  data : Nat → Nat

/-- Modelled from the spec: the RelativePointer load body is not in src (only
the `relative` payload, src/src/tilde_backend.hpp:75-77). Spec 4.2: read the
stored signed offset; a zero offset means nil (`none`); otherwise the absolute
address is storage address + offset, dereferenced once more exactly when the
deref flag is set. -/
def cg_relative_load (m : RelMemory) (s : Nat) (deref : Bool) : Option Nat :=
  let o := m.offsets s
  if o = 0 then none
  else
    let a := ((s : Int) + o).toNat
    some (if deref then m.data a else a)

/-- Modelled from the spec: the RelativePointer store body is not in src.
Spec 4.2: write offset = target address − storage address; nil (`none`) is
encoded as a zero offset. -/
def cg_relative_store (m : RelMemory) (s : Nat) (target : Option Nat) : RelMemory :=
  { m with offsets := fun a =>
      if a = s then
        match target with
        | none => 0
        | some t => (t : Int) - (s : Int)
      else m.offsets a }

/-- All-zero relative-pointer memory. -/
def relMem0 : RelMemory := ⟨fun _ => 0, fun _ => 0⟩

/-- `struct cgModule` (src/src/tilde_backend.hpp:119-133). Maps are embedded
as association lists, the `RwMutex` as a unit placeholder, opaque pointers as
`Nat` handles. The struct carries the atomic `nested_type_name_guid` counter
but no reflection-table slot counter — those live in `cgGlobalState` below. -/
structure cgModule where
  mod : Nat
  checker : Nat
  info : Nat
  values_mutex : Unit
  values : List (Nat × cgValue)
  members : List (String × cgValue)
  procedures : List (String × Nat)
  procedure_values : List (Nat × Nat)
  procedures_to_generate : List Nat
  nested_type_name_guid : Nat
deriving DecidableEq, Repr

/-- The `gb_global` reflection bookkeeping (src/src/tilde_backend.hpp:139-151):
one set of process-wide variables, regardless of how many `cgModule` instances
exist. -/
structure cgGlobalState where
  cg_global_type_info_data_entity : Nat
  cg_global_type_info_member_types : cgAddr
  cg_global_type_info_member_names : cgAddr
  cg_global_type_info_member_offsets : cgAddr
  cg_global_type_info_member_usings : cgAddr
  cg_global_type_info_member_tags : cgAddr
  cg_global_type_info_data_index : Int
  cg_global_type_info_member_types_index : Int
  cg_global_type_info_member_names_index : Int
  cg_global_type_info_member_offsets_index : Int
  cg_global_type_info_member_usings_index : Int
  cg_global_type_info_member_tags_index : Int
deriving DecidableEq, Repr

/-- Whole-process state: every live `cgModule` instance plus the `gb_global`
variables, which exist once per process. -/
structure cgProgramState where
  modules : List cgModule
  globals : cgGlobalState
deriving DecidableEq, Repr

/-- Modelled from the spec: reflection slot indices are handed out by
increment (spec 4.4); the counter incremented is the process-wide
`cg_global_type_info_member_types_index` (src/src/tilde_backend.hpp:147).
The index `_mi` of the module the requesting worker lowers for plays no
part: the code has no per-module counter to select. -/
def cg_bump_member_types_index (s : cgProgramState) (_mi : Nat) : cgProgramState :=
  { s with globals := { s.globals with cg_global_type_info_member_types_index :=
      s.globals.cg_global_type_info_member_types_index + 1 } }

/-- The types-array slot counter as observed through module `_mi`: the only
such counter in the program state is the process-wide global. -/
def observe_member_types_index (s : cgProgramState) (_mi : Nat) : Int :=
  s.globals.cg_global_type_info_member_types_index

/-- A module instance distinguished by its backend module handle. -/
def exModule (h : Nat) : cgModule := ⟨h, 0, 0, (), [], [], [], [], [], 0⟩

/-- Zero-initialized `gb_global` state (C static initialization). -/
def exGlobals : cgGlobalState :=
  ⟨0, cg_addr canonBase, cg_addr canonBase, cg_addr canonBase,
   cg_addr canonBase, cg_addr canonBase, 0, 0, 0, 0, 0, 0⟩

/-- A process holding two independent module instances. -/
def exTwoModules : cgProgramState := ⟨[exModule 1, exModule 2], exGlobals⟩

/-- 2^32, the modulus of `u32` arithmetic. -/
def u32Mod : Nat := 2 ^ 32

/-- `std::atomic<u32> nested_type_name_guid` (src/src/tilde_backend.hpp:132):
the value handed out by the n-th fetch-and-increment starting from 0; `u32`
arithmetic wraps modulo 2^32. -/
def nestedGuidAt : Nat → Nat
  | 0 => 0
  | n + 1 => (nestedGuidAt n + 1) % u32Mod

/-- The Value handle worker `wid` materializes when it must build the
entity's Value itself; distinct workers build distinct handles. -/
def createValueHandle (wid : Nat) : Nat := 100 + wid

/-- A worker's progress through the cache protocol: before its read-locked
lookup, after a read-locked miss, or finished with the handle it observed. -/
inductive WorkerPhase where
  | start
  | missed
  | done (result : Nat)
deriving DecidableEq, Repr

/-- Log entries of the cache protocol. `readLookup` happens under the read
path of the reader/writer lock; `writeRecheckHit` and `writeInsert` happen
under the write path. -/
inductive CacheEvent where
  | readLookup (wid : Nat) (found : Option Nat)
  | writeRecheckHit (wid : Nat) (v : Nat)
  | writeInsert (wid : Nat) (v : Nat)
deriving DecidableEq, Repr

/-- State of the race of two workers on one entity's cache slot: the
entity→Value cache restricted to that entity, each worker's phase, and the
event log. -/
structure CacheRace where
  cache : Option Nat
  w1 : WorkerPhase
  w2 : WorkerPhase
  events : List CacheEvent
deriving DecidableEq, Repr

/-- Modelled from the spec: only the lock field `values_mutex`
(src/src/tilde_backend.hpp:124) is in src. Spec 4.4: a cached read takes the
read path of the reader/writer lock; on a miss the worker takes the write
path, re-checks, and inserts its freshly built Value only if the entity is
still absent. Each lock-protected section is atomic, so one step runs the
worker's next whole section against the current cache. -/
def workerSection (wid : Nat) (ph : WorkerPhase) (cache : Option Nat) :
    WorkerPhase × Option Nat × List CacheEvent :=
  match ph with
  | .start =>
      match cache with
      | some v => (.done v, cache, [.readLookup wid (some v)])
      | none => (.missed, cache, [.readLookup wid none])
  | .missed =>
      match cache with
      | some v => (.done v, cache, [.writeRecheckHit wid v])
      | none =>
          let v := createValueHandle wid
          (.done v, some v, [.writeInsert wid v])
  | .done r => (.done r, cache, [])

/-- One scheduler step: `who = true` runs worker 1's next atomic section,
`who = false` runs worker 2's. -/
def raceStep (s : CacheRace) (who : Bool) : CacheRace :=
  if who then
    let r := workerSection 1 s.w1 s.cache
    { s with w1 := r.1, cache := r.2.1, events := s.events ++ r.2.2 }
  else
    let r := workerSection 2 s.w2 s.cache
    { s with w2 := r.1, cache := r.2.1, events := s.events ++ r.2.2 }

/-- Run an arbitrary interleaving of the two workers. -/
def raceRun (sched : List Bool) (s : CacheRace) : CacheRace :=
  sched.foldl raceStep s

/-- Both workers request the (never previously requested) entity's Value. -/
def raceInit : CacheRace := ⟨none, .start, .start, []⟩

/-- The Values actually inserted into the cache, in log order. -/
def insertedValues (events : List CacheEvent) : List Nat :=
  events.filterMap fun e =>
    match e with
    | .writeInsert _ v => some v
    | _ => none

/-- Inductive invariant of the cache race: a finished worker observed exactly
the cached Value, and the log holds one insertion per cached Value. -/
def RaceInv (s : CacheRace) : Prop :=
  (∀ r, s.w1 = .done r → s.cache = some r)
  ∧ (∀ r, s.w2 = .done r → s.cache = some r)
  ∧ (match s.cache with
     | none => insertedValues s.events = []
     | some v => insertedValues s.events = [v])

/-- A procedure selected for generation: its source entity and its name. -/
structure ProcDecl where
  entity : Nat
  name : String
deriving DecidableEq, Repr

/-- The shared Module caches touched while lowering procedures: the
entity→Value cache, the name→procedure table, and the recorded failed
entities (the diagnostics the driver collects in one pass). -/
structure ModCaches where
  values : List (Nat × Nat)
  procedures : List (String × Nat)
  failed : List Nat
deriving DecidableEq, Repr

/-- Caches of a freshly created Module. -/
def emptyCaches : ModCaches := ⟨[], [], []⟩

/-- Association-list lookup for the entity→Value cache. -/
def lookupEntity (e : Nat) : List (Nat × Nat) → Option Nat
  | [] => none
  | (k, v) :: rest => if e = k then some v else lookupEntity e rest

/-- Modelled from the spec: the lowering driver is not in src. Spec 5/7:
`outcome p = some v` means procedure `p` lowers to value handle `v` and the
result is published into the entity→Value cache and the procedure table;
`outcome p = none` means its lowering fails: the failure is recorded and no
entry is left in any shared cache. -/
def lowerOne (outcome : ProcDecl → Option Nat) (st : ModCaches) (p : ProcDecl) :
    ModCaches :=
  match outcome p with
  | some v =>
      { st with
        values := (p.entity, v) :: st.values,
        procedures := (p.name, v) :: st.procedures }
  | none => { st with failed := p.entity :: st.failed }

/-- Lower every procedure of the work list in order; siblings continue after
a failure. -/
def lowerAll (outcome : ProcDecl → Option Nat) (ps : List ProcDecl)
    (st : ModCaches) : ModCaches :=
  ps.foldl (lowerOne outcome) st

/-- A concrete work list for the witness: entities 1, 2, 3. -/
def exProcs : List ProcDecl := [⟨1, "a"⟩, ⟨2, "b"⟩, ⟨3, "c"⟩]

/-- A concrete outcome for the witness: entity 2's procedure fails, the
others lower to handles 10 + entity. -/
def exOutcome : ProcDecl → Option Nat :=
  fun p => if p.entity = 2 then none else some (10 + p.entity)

/-- Procedure nesting state: `size` procedures live in an arena, referenced
by arena index; `parent i` and `children i` embed the source fields
`cgProcedure *parent; Array<cgProcedure *> children;`
(src/src/tilde_backend.hpp:95-96), meaningful for `i < size`. -/
structure ProcForest where
  size : Nat
  parent : Nat → Option Nat
  children : Nat → List Nat

/-- No procedures created yet. -/
def emptyForest : ProcForest := ⟨0, fun _ => none, fun _ => []⟩

/-- Modelled from the spec: procedure creation is not in src (only the
`parent`/`children` fields). Spec 4.3: on creation, a Procedure registers
itself as a child of its parent (if any): the new procedure takes the next
arena index, stores its parent reference, and is appended to its parent's
children sequence. -/
def createProc (f : ProcForest) (par : Option Nat) : ProcForest :=
  { size := f.size + 1
  , parent := fun i => if i = f.size then par else f.parent i
  , children := fun i =>
      if par = some i then f.children i ++ [f.size] else f.children i }

/-- Create one procedure per list element, each with the given parent. -/
def buildForest (ops : List (Option Nat)) : ProcForest :=
  ops.foldl createProc emptyForest

/-- Validity of a creation sequence starting from `len` existing procedures:
each parent reference names an already created procedure. -/
def validOps : Nat → List (Option Nat) → Bool
  | _, [] => true
  | len, none :: rest => validOps (len + 1) rest
  | len, some p :: rest => decide (p < len) && validOps (len + 1) rest

/-- The k-th ancestor along parent links (`some i` at k = 0). -/
def ancestorAt (f : ProcForest) : Nat → Nat → Option Nat
  | 0, i => some i
  | k + 1, i =>
      match f.parent i with
      | none => none
      | some p => ancestorAt f k p

/-- Inductive invariant of the procedure arena: parent links point at earlier
(already created) procedures, indices at or past `size` are untouched,
children links point at later procedures in range, and every procedure
appears in a children sequence exactly as often as its parent reference
demands: once under its parent, nowhere else. -/
def ForestInv (f : ProcForest) : Prop :=
  (∀ i p, f.parent i = some p → p < i ∧ i < f.size)
  ∧ (∀ i, f.size ≤ i → f.parent i = none ∧ f.children i = [])
  ∧ (∀ i c, c ∈ f.children i → i < c ∧ c < f.size)
  ∧ (∀ i j, (f.children i).count j = if f.parent j = some i then 1 else 0)

/-- A concrete creation sequence for the witness: a root, two children of
the root, one grandchild. -/
def c9ops : List (Option Nat) := [none, some 0, some 0, some 1]

end Tilde

open Tilde

/-- C1: a constructed Value has kind SymbolValue iff it was constructed from a
symbol-class input (global, external declaration, function, or generic backend
symbol); a Value constructed from a raw IR node always has kind PlainValue
(`cgValue_Value`); and the Value's `type` field equals the type passed at
construction. -/
theorem c1_cg_value_kind :
    (∀ (inp : cgValueInput) (t : Ty),
        ((cg_value inp t).kind = cgValueKind.Symbol ↔ inp.isSymbolClass = true)
        ∧ (cg_value inp t).type = t)
    ∧ (∀ (n : TBNode) (t : Ty), (cg_value (.node n) t).kind = cgValueKind.Value) := by
  refine ⟨fun inp t => ?_, fun n t => rfl⟩
  cases inp <;> simp [cg_value, cgValueInput.isSymbolClass]

/-- C2: a store through a SwizzleSmall or SwizzleLarge Addr whose destination
index list contains a repeated index produces the duplicate-destination error
and emits no store instructions; the result is a recoverable `Except.error`
(user-facing check aborting only the current store synthesis), not the fatal
wrong-kind outcome `none`. -/
theorem c2_swizzle_dup_store_rejected :
    ∀ (a : cgAddr) (v : cgValue),
      a.WF = true →
      (a.kind = cgAddrKind.Swizzle ∨ a.kind = cgAddrKind.SwizzleLarge) →
      hasDup (swizzleIndicesOf a) = true →
      cg_addr_store a v = some (Except.error cgError.duplicateSwizzleDestination)
      ∧ ∀ instrs, cg_addr_store a v ≠ some (Except.ok instrs) := by
  rintro ⟨k, base, u⟩ v hwf hk hdup
  rcases hk with hk | hk <;> subst hk <;>
    cases u <;> simp [cgAddr.WF] at hwf <;>
    simp [cg_addr_store, swizzleIndicesOf] at hdup ⊢ <;>
    simp [hdup]

/-- Closed witness for C2 at a concrete SwizzleSmall Addr with destination
indices [0, 0]. -/
theorem c2_swizzle_dup_store_rejected_witness :
    dupSwizzleAddr.WF = true
    ∧ (dupSwizzleAddr.kind = cgAddrKind.Swizzle
        ∨ dupSwizzleAddr.kind = cgAddrKind.SwizzleLarge)
    ∧ hasDup (swizzleIndicesOf dupSwizzleAddr) = true
    ∧ cg_addr_store dupSwizzleAddr canonBase
        = some (Except.error cgError.duplicateSwizzleDestination) :=
  ⟨by decide, by decide, by decide,
   (c2_swizzle_dup_store_rejected dupSwizzleAddr canonBase (by decide)
      (Or.inl (by decide)) (by decide)).1⟩

/-- C5: `cgAddrKind` has exactly the eight kinds of the source enum; on every
well-formed Addr the active union member is exactly the member its kind reads;
both consumers (load and store synthesis) dispatch exhaustively, never hitting
the wrong-kind outcome on a well-formed Addr; and the eight kinds' load
protocols are pairwise distinct on canonical Addrs over one shared base. -/
theorem c5_addr_kinds_payload_protocols :
    (allAddrKinds.length = 8 ∧ allAddrKinds.Nodup ∧ ∀ k, k ∈ allAddrKinds)
    ∧ (∀ a : cgAddr, a.WF = true → a.u.member = kindMember a.kind)
    ∧ (∀ a : cgAddr, a.WF = true →
        (cg_addr_load a).isSome = true ∧ ∀ v, cg_addr_store a v ≠ none)
    ∧ Function.Injective (fun k => cg_addr_load (canonAddr k)) := by
  refine ⟨⟨rfl, by decide, by decide⟩, ?_, ?_, ?_⟩
  · rintro ⟨k, base, u⟩ hwf
    cases k <;> cases u <;> simp_all [cgAddr.WF, cgAddrUnion.member, kindMember]
  · rintro ⟨k, base, u⟩ hwf
    cases k <;> cases u <;> simp_all [cgAddr.WF] <;>
      constructor <;>
      simp [cg_addr_load, cg_addr_store] <;>
      intro v <;> split <;> simp
  · intro k1 k2 h
    revert h
    cases k1 <;> cases k2 <;> decide

/-- Closed witness for C5 at the canonical SwizzleLarge Addr. -/
theorem c5_addr_kinds_payload_protocols_witness :
    (canonAddr cgAddrKind.SwizzleLarge).WF = true
    ∧ (canonAddr cgAddrKind.SwizzleLarge).u.member
        = kindMember (canonAddr cgAddrKind.SwizzleLarge).kind :=
  ⟨by decide,
   c5_addr_kinds_payload_protocols.2.1 (canonAddr cgAddrKind.SwizzleLarge) (by decide)⟩

/-- C7: constructing a SwizzleSmall Addr succeeds exactly when the component
count (the number of literal component indices, at most 4) is 2, 3 or 4. -/
theorem c7_swizzle_small_count :
    ∀ (base : cgValue) (type : Ty) (indices : List Nat),
      (cg_addr_swizzle base type indices).isSome = true
        ↔ (2 ≤ indices.length ∧ indices.length ≤ 4) := by
  intro base type indices
  by_cases h : 2 ≤ indices.length ∧ indices.length ≤ 4 <;>
    simp [cg_addr_swizzle, h]

/-- C3 counterexample: with two distinct Module instances in the process, a
types-slot increment performed while lowering for module 0 changes the counter
observed through module 1 from 0 to 1 — the counter is the process-wide
`gb_global cg_global_type_info_member_types_index`
(src/src/tilde_backend.hpp:147), not a `cgModule` field, so independent Module
instances do not have independent reflection slot counters. -/
theorem c3_counters_counterexample :
    observe_member_types_index (cg_bump_member_types_index exTwoModules 0) 1 = 1
    ∧ observe_member_types_index exTwoModules 1 = 0
    ∧ exTwoModules.modules.get? 0 ≠ exTwoModules.modules.get? 1 := by
  refine ⟨rfl, rfl, by decide⟩

/-- C3 amended: the reflection-table slot counters are process-wide globals
(`gb_global`, src/src/tilde_backend.hpp:146-151) rather than per-instance
`cgModule` fields; a slot increment requested while lowering for any module is
observed identically through every module, and it bumps the one shared
counter by 1. -/
theorem c3_counters_amended :
    ∀ (s : cgProgramState) (i j k : Nat),
      observe_member_types_index (cg_bump_member_types_index s i) j
        = observe_member_types_index (cg_bump_member_types_index s i) k
      ∧ observe_member_types_index (cg_bump_member_types_index s i) j
        = observe_member_types_index s j + 1 :=
  fun _ _ _ _ => ⟨rfl, rfl⟩

/-- C4 counterexample: the claim "store followed by load of a non-nil target
recovers that target's address" fails when the target address equals the
storage address: storing target 8 at storage address 8 writes offset
8 − 8 = 0, the encoding of nil, so the subsequent load yields nil, not 8. -/
theorem c4_relative_pointer_counterexample :
    cg_relative_load (cg_relative_store relMem0 8 (some 8)) 8 false ≠ some 8 := by
  decide

/-- C4 amended: for a RelativePointer, load reads the stored signed offset,
yields nil on a zero offset and the datum at storage address + offset
otherwise, with one extra dereference exactly when the deref flag is set;
store writes offset = target − storage, encoding nil as a zero offset; and
store followed by (deref-free) load recovers a non-nil target's address
provided the target address differs from the storage address (a zero offset
being reserved for nil). -/
theorem c4_relative_pointer_amended :
    (∀ (m : RelMemory) (s t : Nat), t ≠ s →
        cg_relative_load (cg_relative_store m s (some t)) s false = some t)
    ∧ (∀ (m : RelMemory) (s : Nat) (deref : Bool),
        cg_relative_load (cg_relative_store m s none) s deref = none)
    ∧ (∀ (m : RelMemory) (s : Nat), m.offsets s ≠ 0 →
        cg_relative_load m s true = (cg_relative_load m s false).map m.data) := by
  refine ⟨?_, ?_, ?_⟩
  · intro m s t hts
    have h0 : (t : Int) - (s : Int) ≠ 0 := by omega
    simp [cg_relative_load, cg_relative_store, h0]
  · intro m s deref
    simp [cg_relative_load, cg_relative_store]
  · intro m s h
    simp [cg_relative_load, h]

/-- Closed witness for C4 (amended) at concrete inputs: round trip through
storage address 8 of target 12, and the deref-flag relation at a storage
cell holding offset 5. -/
theorem c4_relative_pointer_amended_witness :
    cg_relative_load (cg_relative_store relMem0 8 (some 12)) 8 false = some 12
    ∧ cg_relative_load (cg_relative_store relMem0 0 (some 5)) 0 true
        = (cg_relative_load (cg_relative_store relMem0 0 (some 5)) 0 false).map
            (cg_relative_store relMem0 0 (some 5)).data :=
  ⟨c4_relative_pointer_amended.1 relMem0 8 12 (by decide),
   c4_relative_pointer_amended.2.2 (cg_relative_store relMem0 0 (some 5)) 0 (by decide)⟩

/-- Helper for C10: the n-th handed-out nested-name guid is n modulo 2^32. -/
theorem nestedGuidAt_eq (n : Nat) : nestedGuidAt n = n % u32Mod := by
  induction n with
  | zero => rfl
  | succ n ih =>
    rw [nestedGuidAt, ih]
    simp only [u32Mod]
    omega

/-- C10: the nested-name counter is a 32-bit unsigned atomic, so each
increment is computed modulo 2^32: while all increment indices stay below
2^32, handed-out values coincide only at equal indices, and the value handed
out by increment number 2^32 equals the one handed out by increment 0 —
values repeat beyond 2^32 increments. -/
theorem c10_nested_guid_wrap :
    (∀ i j, i < u32Mod → j < u32Mod → (nestedGuidAt i = nestedGuidAt j ↔ i = j))
    ∧ nestedGuidAt u32Mod = nestedGuidAt 0 := by
  constructor
  · intro i j hi hj
    rw [nestedGuidAt_eq, nestedGuidAt_eq, Nat.mod_eq_of_lt hi, Nat.mod_eq_of_lt hj]
  · rw [nestedGuidAt_eq, Nat.mod_self]
    rfl

/-- Closed witness for C10 at increments 3 and 5. -/
theorem c10_nested_guid_wrap_witness :
    (nestedGuidAt 3 = nestedGuidAt 5 ↔ 3 = 5)
    ∧ nestedGuidAt u32Mod = nestedGuidAt 0 :=
  ⟨c10_nested_guid_wrap.1 3 5 (by decide) (by decide), c10_nested_guid_wrap.2⟩

/-- Helper for C6: the race invariant holds initially. -/
theorem raceInv_init : RaceInv raceInit := by
  refine ⟨fun r h => ?_, fun r h => ?_, ?_⟩
  · simp [raceInit] at h
  · simp [raceInit] at h
  · simp [raceInit, insertedValues]

/-- Helper for C6: one scheduler step preserves the race invariant. -/
theorem raceStep_inv (s : CacheRace) (who : Bool) (h : RaceInv s) :
    RaceInv (raceStep s who) := by
  obtain ⟨h1, h2, h3⟩ := h
  rcases s with ⟨cache, w1, w2, events⟩
  simp only [RaceInv] at *
  cases who
  · cases w2 <;> cases cache <;>
      simp_all [raceStep, workerSection, insertedValues, List.filterMap_append]
  · cases w1 <;> cases cache <;>
      simp_all [raceStep, workerSection, insertedValues, List.filterMap_append]

/-- Helper for C6: any interleaving preserves the race invariant. -/
theorem raceRun_inv (sched : List Bool) (s : CacheRace) (h : RaceInv s) :
    RaceInv (raceRun sched s) := by
  induction sched generalizing s with
  | nil => exact h
  | cons b l ih => exact ih (raceStep s b) (raceStep_inv s b h)

/-- C6: under every interleaving of the two workers' lock-protected sections
(read-locked lookup; on a miss, write-locked re-check and insert), when both
workers have finished their first-time request for the entity's cached Value,
they observe the identical handle, the cache holds exactly that Value, and
the event log contains exactly one insertion — even though each worker would
have built a distinct handle had it inserted. -/
theorem c6_cache_race_single_insert :
    ∀ (sched : List Bool) (r1 r2 : Nat),
      (raceRun sched raceInit).w1 = WorkerPhase.done r1 →
      (raceRun sched raceInit).w2 = WorkerPhase.done r2 →
      r1 = r2 ∧ (raceRun sched raceInit).cache = some r1
      ∧ insertedValues (raceRun sched raceInit).events = [r1] := by
  intro sched r1 r2 hw1 hw2
  obtain ⟨h1, h2, h3⟩ := raceRun_inv sched raceInit raceInv_init
  have e1 := h1 r1 hw1
  have e2 := h2 r2 hw2
  rw [e1] at e2 h3
  simp only at h3
  exact ⟨Option.some.inj e2, e1, h3⟩

/-- Closed witness for C6 at the schedule where both workers miss under the
read lock before either takes the write lock: worker 1 inserts handle 101 and
worker 2's write-locked re-check observes it. -/
theorem c6_cache_race_single_insert_witness :
    (101 : Nat) = 101
    ∧ (raceRun [true, false, true, false] raceInit).cache = some 101
    ∧ insertedValues (raceRun [true, false, true, false] raceInit).events = [101] :=
  c6_cache_race_single_insert [true, false, true, false] 101 101 (by decide) (by decide)

/-- Helper for C8: lowering procedures whose entities all differ from `e`
leaves `e`'s slot in the entity→Value cache untouched. -/
theorem lowerAll_values_frame (outcome : ProcDecl → Option Nat)
    (ps : List ProcDecl) (st : ModCaches) (e : Nat)
    (h : ∀ p, p ∈ ps → p.entity ≠ e) :
    lookupEntity e (lowerAll outcome ps st).values = lookupEntity e st.values := by
  induction ps generalizing st with
  | nil => rfl
  | cons q l ih =>
      have hq : q.entity ≠ e := h q (List.mem_cons_self q l)
      have hl : ∀ p, p ∈ l → p.entity ≠ e :=
        fun p hp => h p (List.mem_cons_of_mem q hp)
      show lookupEntity e (lowerAll outcome l (lowerOne outcome st q)).values = _
      rw [ih (lowerOne outcome st q) hl]
      cases hout : outcome q <;>
        simp [lowerOne, hout, lookupEntity, Ne.symm hq]

/-- Helper for C8: recorded failures are never dropped by later lowering. -/
theorem lowerAll_failed_mono (outcome : ProcDecl → Option Nat)
    (ps : List ProcDecl) (st : ModCaches) (e : Nat) (h : e ∈ st.failed) :
    e ∈ (lowerAll outcome ps st).failed := by
  induction ps generalizing st with
  | nil => exact h
  | cons q l ih =>
      show e ∈ (lowerAll outcome l (lowerOne outcome st q)).failed
      refine ih (lowerOne outcome st q) ?_
      cases hout : outcome q <;> simp [lowerOne, hout, h]

/-- Helper for C8: over a work list with pairwise distinct entities, a failed
procedure leaves its entity's cache slot exactly as it started and lands in
the failure record, while a successful one ends up cached. -/
theorem lowerAll_spec (outcome : ProcDecl → Option Nat) :
    ∀ (ps : List ProcDecl) (st : ModCaches),
      (ps.map ProcDecl.entity).Nodup →
      (∀ p, p ∈ ps → outcome p = none →
          lookupEntity p.entity (lowerAll outcome ps st).values
            = lookupEntity p.entity st.values
          ∧ p.entity ∈ (lowerAll outcome ps st).failed)
      ∧ (∀ p v, p ∈ ps → outcome p = some v →
          lookupEntity p.entity (lowerAll outcome ps st).values = some v) := by
  intro ps
  induction ps with
  | nil =>
      exact fun st _ =>
        ⟨fun p hp _ => absurd hp (List.not_mem_nil p),
         fun p v hp _ => absurd hp (List.not_mem_nil p)⟩
  | cons q l ih =>
      intro st hnd
      rw [List.map_cons, List.nodup_cons] at hnd
      obtain ⟨hq_not, hnd_l⟩ := hnd
      have hne : ∀ r, r ∈ l → r.entity ≠ q.entity := by
        intro r hr heq
        exact hq_not (heq ▸ List.mem_map_of_mem ProcDecl.entity hr)
      have ih' := ih (lowerOne outcome st q) hnd_l
      constructor
      · intro p hp hout
        rcases List.mem_cons.mp hp with rfl | hp'
        · have hvals : (lowerOne outcome st p).values = st.values := by
            simp [lowerOne, hout]
          constructor
          · show lookupEntity p.entity
                (lowerAll outcome l (lowerOne outcome st p)).values = _
            rw [lowerAll_values_frame outcome l _ p.entity hne, hvals]
          · show p.entity ∈ (lowerAll outcome l (lowerOne outcome st p)).failed
            refine lowerAll_failed_mono outcome l _ p.entity ?_
            simp [lowerOne, hout]
        · have hpq : p.entity ≠ q.entity := hne p hp'
          obtain ⟨hv, hf⟩ := ih'.1 p hp' hout
          refine ⟨?_, hf⟩
          show lookupEntity p.entity
              (lowerAll outcome l (lowerOne outcome st q)).values = _
          rw [hv]
          cases hout2 : outcome q <;>
            simp [lowerOne, hout2, lookupEntity, hpq]
      · intro p v hp hout
        rcases List.mem_cons.mp hp with rfl | hp'
        · show lookupEntity p.entity
              (lowerAll outcome l (lowerOne outcome st p)).values = some v
          rw [lowerAll_values_frame outcome l _ p.entity hne]
          simp [lowerOne, hout, lookupEntity]
        · exact ih'.2 p v hp' hout

/-- C8: over a work list of procedures with pairwise distinct entities
starting from fresh Module caches, every procedure whose lowering fails
leaves no entry for its entity in the entity→Value cache (a failed entity is
never marked as successfully cached) and is recorded as failed, while every
sibling procedure that lowers successfully — before or after any failure —
is cached as usual. -/
theorem c8_failed_never_cached :
    ∀ (outcome : ProcDecl → Option Nat) (ps : List ProcDecl),
      (ps.map ProcDecl.entity).Nodup →
      (∀ p, p ∈ ps → outcome p = none →
          lookupEntity p.entity (lowerAll outcome ps emptyCaches).values = none
          ∧ p.entity ∈ (lowerAll outcome ps emptyCaches).failed)
      ∧ (∀ p v, p ∈ ps → outcome p = some v →
          lookupEntity p.entity (lowerAll outcome ps emptyCaches).values = some v) := by
  intro outcome ps hnd
  obtain ⟨hfail, hsucc⟩ := lowerAll_spec outcome ps emptyCaches hnd
  exact ⟨fun p hp hout => (hfail p hp hout), hsucc⟩

/-- Closed witness for C8 on the concrete work list with entities 1, 2, 3,
of which entity 2's procedure fails: entity 2 is uncached and recorded
failed, and its sibling entity 3 (lowered after the failure) is cached. -/
theorem c8_failed_never_cached_witness :
    (lookupEntity 2 (lowerAll exOutcome exProcs emptyCaches).values = none
      ∧ 2 ∈ (lowerAll exOutcome exProcs emptyCaches).failed)
    ∧ lookupEntity 3 (lowerAll exOutcome exProcs emptyCaches).values = some 13 :=
  ⟨(c8_failed_never_cached exOutcome exProcs (by decide)).1
      ⟨2, "b"⟩ (by decide) (by decide),
   (c8_failed_never_cached exOutcome exProcs (by decide)).2
      ⟨3, "c"⟩ 13 (by decide) (by decide)⟩

/-- Helper for C9: the arena invariant holds for the empty arena. -/
theorem forestInv_empty : ForestInv emptyForest := by
  refine ⟨?_, ?_, ?_, ?_⟩ <;> intro i <;> simp [emptyForest]

/-- Helper for C9: creating one procedure with an already created parent
preserves the arena invariant. -/
theorem createProc_inv (f : ProcForest) (par : Option Nat)
    (hpar : ∀ p, par = some p → p < f.size) (h : ForestInv f) :
    ForestInv (createProc f par) := by
  obtain ⟨hA, hD, hC, hB⟩ := h
  refine ⟨?_, ?_, ?_, ?_⟩
  · intro i p hp
    simp only [createProc] at hp
    by_cases hi : i = f.size
    · subst hi
      rw [if_pos rfl] at hp
      exact ⟨hpar p hp, Nat.lt_succ_self _⟩
    · rw [if_neg hi] at hp
      obtain ⟨h1, h2⟩ := hA i p hp
      exact ⟨h1, Nat.lt_succ_of_lt h2⟩
  · intro i hi
    simp only [createProc] at hi ⊢
    have hne : i ≠ f.size := by omega
    obtain ⟨hp0, hc0⟩ := hD i (by omega)
    have hnp : par ≠ some i := fun heq => by have := hpar i heq; omega
    rw [if_neg hne, if_neg hnp]
    exact ⟨hp0, hc0⟩
  · intro i c hc
    simp only [createProc] at hc ⊢
    by_cases hpi : par = some i
    · rw [if_pos hpi] at hc
      rcases List.mem_append.mp hc with hold | hnew
      · obtain ⟨h1, h2⟩ := hC i c hold
        exact ⟨h1, by omega⟩
      · have hcs : c = f.size := by simpa using hnew
        subst hcs
        exact ⟨hpar i hpi, by omega⟩
    · rw [if_neg hpi] at hc
      obtain ⟨h1, h2⟩ := hC i c hc
      exact ⟨h1, by omega⟩
  · intro i j
    simp only [createProc]
    have hcount0 : (f.children i).count f.size = 0 := by
      have hp0 : f.parent f.size = none := (hD f.size (Nat.le_refl _)).1
      simpa [hp0] using hB i f.size
    by_cases hj : j = f.size
    · subst hj
      by_cases hpi : par = some i <;>
        simp [hpi, hcount0, List.count_append]
    · by_cases hpi : par = some i <;>
        simp [hpi, hj, List.count_append, List.count_singleton', beq_iff_eq,
          hB i j]

/-- Helper for C9: a valid creation sequence applied to an invariant-holding
arena yields an invariant-holding arena. -/
theorem buildForest_inv_aux :
    ∀ (ops : List (Option Nat)) (f : ProcForest),
      validOps f.size ops = true → ForestInv f →
      ForestInv (ops.foldl createProc f) := by
  intro ops
  induction ops with
  | nil => exact fun f _ h => h
  | cons op rest ih =>
      intro f hv hinv
      cases op with
      | none =>
          simp only [validOps] at hv
          exact ih (createProc f none)
            (by simpa [createProc] using hv)
            (createProc_inv f none (by simp) hinv)
      | some q =>
          simp only [validOps, Bool.and_eq_true, decide_eq_true_eq] at hv
          refine ih (createProc f (some q))
            (by simpa [createProc] using hv.2)
            (createProc_inv f (some q) ?_ hinv)
          intro p hp
          obtain rfl : p = q := (Option.some.inj hp).symm
          exact hv.1

/-- Helper for C9: when every parent link points at a strictly smaller index,
a positive number of parent-link steps strictly decreases the index. -/
theorem ancestorAt_lt (f : ProcForest)
    (hA : ∀ i p, f.parent i = some p → p < i) :
    ∀ k i j, ancestorAt f (k + 1) i = some j → j < i := by
  intro k
  induction k with
  | zero =>
      intro i j h
      simp only [ancestorAt] at h
      cases hp : f.parent i with
      | none => rw [hp] at h; exact absurd h (by simp)
      | some p =>
          rw [hp] at h
          simp only [ancestorAt] at h
          obtain rfl : p = j := Option.some.inj h
          exact hA i p hp
  | succ k ih =>
      intro i j h
      simp only [ancestorAt] at h
      cases hp : f.parent i with
      | none => rw [hp] at h; exact absurd h (by simp)
      | some p => exact Nat.lt_trans (ih p j (by rw [hp] at h; exact h)) (hA i p hp)

/-- C9: after any valid sequence of procedure creations, every parent link
points at an earlier-created procedure; each procedure appears in a parent's
children sequence exactly once when its parent reference equals that parent
and zero times otherwise (so a child appended at creation appears exactly
once); every child's parent reference equals the procedure whose children
sequence holds it; and no procedure is its own proper ancestor — the
parent/children links form a forest. -/
theorem c9_procedure_forest :
    ∀ ops : List (Option Nat), validOps 0 ops = true →
      (∀ i p, (buildForest ops).parent i = some p → p < i)
      ∧ (∀ i j, ((buildForest ops).children i).count j
            = if (buildForest ops).parent j = some i then 1 else 0)
      ∧ (∀ i c, c ∈ (buildForest ops).children i →
            (buildForest ops).parent c = some i)
      ∧ (∀ i k, 0 < k → ancestorAt (buildForest ops) k i ≠ some i) := by
  intro ops hv
  have hinv : ForestInv (buildForest ops) :=
    buildForest_inv_aux ops emptyForest hv forestInv_empty
  obtain ⟨hA, hD, hC, hB⟩ := hinv
  have hA' : ∀ i p, (buildForest ops).parent i = some p → p < i :=
    fun i p hp => (hA i p hp).1
  refine ⟨hA', hB, ?_, ?_⟩
  · intro i c hc
    have hcount := hB i c
    by_cases hp : (buildForest ops).parent c = some i
    · exact hp
    · rw [if_neg hp] at hcount
      have hpos : 0 < ((buildForest ops).children i).count c :=
        List.count_pos_iff.mpr hc
      omega
  · intro i k hk hcyc
    obtain ⟨k', rfl⟩ : ∃ k', k = k' + 1 := ⟨k - 1, by omega⟩
    exact absurd (ancestorAt_lt (buildForest ops) hA' k' i i hcyc)
      (Nat.lt_irrefl i)

/-- Closed witness for C9 on the concrete creation sequence (a root, two
children of the root, a grandchild): procedure 1 appears in procedure 0's
children exactly as its parent reference demands, and procedure 2 is not its
own one-step ancestor. -/
theorem c9_procedure_forest_witness :
    ((buildForest c9ops).children 0).count 1
      = (if (buildForest c9ops).parent 1 = some 0 then 1 else 0)
    ∧ ancestorAt (buildForest c9ops) 1 2 ≠ some 2 :=
  ⟨(c9_procedure_forest c9ops (by decide)).2.1 0 1,
   (c9_procedure_forest c9ops (by decide)).2.2.2 2 1 (by decide)⟩
